import Mathlib

/-
Verification development for the http-fetcher package.

The embedding translates src/http-fetcher.ts (createHttpFetcher and its
helpers), src/http-error-with-response-body.ts and src/http-method.ts into
Lean definitions.  JavaScript objects used as header maps are modelled as
association lists in insertion order, where a later binding for a key
shadows an earlier one (exactly the semantics of object spread per key);
JSON values as an inductive type; promises that can reject as explicit
outcome values; the ky transport, the error reporter sink and the
registered error handlers as explicit parameters, with the reporter calls
and handler calls recorded in the dispatch output.
-/

namespace HttpFetcher

/-- JSON values, as produced by a response body JSON reader. -/
inductive Json where
  | null : Json
  | bool (b : Bool) : Json
  | num (n : Int) : Json
  | str (s : String) : Json
  | arr (elems : List Json) : Json
  | obj (fields : List (String × Json)) : Json

/-- Property lookup on a JSON value: the value of the named field when the
value is an object that has it, none otherwise. -/
def Json.getField : Json → String → Option Json
  | .obj fields, key => (fields.find? (fun p => p.1 = key)).map (fun p => p.2)
  | _, _ => none

/-- JS string test used by zod z.string validation. -/
def Json.asString : Json → Option String
  | .str s => some s
  | _ => none

/-- One validated entry of the backendErrorsSchema in src/http-fetcher.ts:
an object with string fields errorCode and message. -/
structure BackendError where
  errorCode : String
  message : String
deriving DecidableEq

/-- Validation of one element of the errors array against
z.object with errorCode : z.string and message : z.string (zod objects
accept extra keys and require the listed ones to validate). -/
def parseBackendError (value : Json) : Option BackendError :=
  match (value.getField "errorCode").bind Json.asString,
        (value.getField "message").bind Json.asString with
  | some errorCode, some message => some ⟨errorCode, message⟩
  | _, _ => none

/-- backendErrorsSchema.safeParse from src/http-fetcher.ts: succeeds exactly
when the value is an object whose errors field is an array of length at
least one, every element of which validates as a BackendError. -/
def safeParseBackendErrors (value : Json) : Option (List BackendError) :=
  match value.getField "errors" with
  | some (.arr elems) =>
    match elems.mapM parseBackendError with
    | some errors => if 1 ≤ errors.length then some errors else none
    | none => none
  | _ => none

/-- A generic JS Error value (no HTTP semantics): its message plus an
opaque tag standing for its identity and remaining properties. -/
structure GenericError where
  message : String
  tag : Nat
deriving DecidableEq

/-- A ky HTTPError as far as the fetcher inspects it: its message, the
behavior of its response JSON reader (some j when error.response.json()
resolves with j, none when that reader rejects), and an opaque identity
tag. -/
structure HTTPErrorModel where
  message : String
  responseJson : Option Json
  tag : Nat

/-- The error values a dispatch can produce or report.
httpError is an original ky HTTPError; withResponseBody is the
HTTPErrorWithResponseBody subclass of src/http-error-with-response-body.ts
(same response, hence same message, plus the parsed body); composite is
the plain object built in mapErrorToHttpFetcherError by spreading an error
and overriding errorCode and message; generic is a plain Error; and
couldNotFetch is the Error synthesized at the end of fetch. -/
inductive HttpFetcherError where
  | httpError (error : HTTPErrorModel)
  | withResponseBody (error : HTTPErrorModel) (body : Json)
  | composite (errorCode : String) (message : String) (spreadFrom : HttpFetcherError)
  | generic (error : GenericError)
  | couldNotFetch (url : String)

/-- The message property of each error value. -/
def HttpFetcherError.message : HttpFetcherError → String
  | .httpError error => error.message
  | .withResponseBody error _ => error.message
  | .composite _ message _ => message
  | .generic error => error.message
  | .couldNotFetch url => "Could not fetch from " ++ url

/-- Whether an error value is the HTTPErrorWithResponseBody wrapper, the
shape that carries a response body next to the original HTTP error. -/
def HttpFetcherError.isWithResponseBody : HttpFetcherError → Bool
  | .withResponseBody _ _ => true
  | _ => false

/-- mapErrorToHttpFetcherError from src/http-fetcher.ts: when the value
validates against backendErrorsSchema, build the spread object with
errorCode from the first entry (or the empty string) and message of the
form errorCode, colon, space, first entry message (or the message of the
error argument); otherwise return the error argument unchanged. -/
def mapErrorToHttpFetcherError (value : Json) (error : HttpFetcherError) : HttpFetcherError :=
  match safeParseBackendErrors value with
  | some backendErrors =>
    let errorCode := ((backendErrors.head?).map BackendError.errorCode).getD ""
    let errorMessage := ((backendErrors.head?).map BackendError.message).getD error.message
    .composite errorCode (errorCode ++ ": " ++ errorMessage) error
  | none => error

/-- Header maps, as JS objects of string values: association lists in
insertion order; a later binding for a key shadows an earlier one. -/
abbrev RequestHeaders := List (String × String)

/-- First-some choice on optional strings, for stating per-key precedence. -/
def orElseO (a b : Option String) : Option String :=
  match a with
  | some v => some v
  | none => b

/-- The value a JS object holds for a key: the value of the last binding
for that key, none when the key is absent. -/
def hLookup : RequestHeaders → String → Option String
  | [], _ => none
  | p :: rest, key =>
    orElseO (hLookup rest key) (if p.1 = key then some p.2 else none)

/-- The headers object built in fetch (src/http-fetcher.ts):
requestHeaders.mapOrElse over the runtime header slot, spreading the
initial configuration headers, then the runtime headers when present, then
the per-call request option headers.  Object spread is concatenation of
the binding lists (later bindings shadow earlier ones per key). -/
def effectiveHeaders (initialRequestHeaders : RequestHeaders)
    (requestHeaders : Option RequestHeaders)
    (requestOptionHeaders : RequestHeaders) : RequestHeaders :=
  match requestHeaders with
  | none => initialRequestHeaders ++ requestOptionHeaders
  | some defaultHeaders => initialRequestHeaders ++ defaultHeaders ++ requestOptionHeaders

/-- The requestHeaders property setter of the fetcher (src/http-fetcher.ts):
when no runtime headers were set, the assigned map becomes the runtime
layer; otherwise the assigned map is spread on top of the previous runtime
headers. -/
def setRequestHeaders (current : Option RequestHeaders) (assigned : RequestHeaders) :
    Option RequestHeaders :=
  match current with
  | none => some assigned
  | some headers => some (headers ++ assigned)

/-- Removal of the maximal run of elements satisfying q at the end of a
list: the semantics of JS String.replace with the anchored regex used in
determineUrlToFetch for trailing slashes. -/
def dropTrailing (q : Char → Bool) : List Char → List Char
  | [] => []
  | c :: rest =>
    if (dropTrailing q rest).isEmpty then if q c then [] else [c]
    else c :: dropTrailing q rest

/-- The basePath computation of determineUrlToFetch: strip every trailing
slash from a pathname. -/
def stripTrailingSlashes (s : String) : String :=
  ⟨dropTrailing (fun c => c = '/') s.data⟩

/-- The extendedPath computation of determineUrlToFetch: strip every
leading slash from the supplied pathname. -/
def stripLeadingSlashes (s : String) : String :=
  ⟨s.data.dropWhile (fun c => c = '/')⟩

/-- A string made of n slashes, for stating slash-insensitivity. -/
def slashes (n : Nat) : String :=
  ⟨List.replicate n '/'⟩

/-- A WHATWG URL as far as the fetcher inspects it: scheme, host (with
port when present) and pathname.  Pathnames of parsed http URLs always
begin with a slash. -/
structure URLModel where
  scheme : String
  host : String
  pathname : String
deriving DecidableEq

/-- The origin property of a URL. -/
def URLModel.origin (u : URLModel) : String :=
  u.scheme ++ "://" ++ u.host

/-- Whether a string begins with two slashes, which makes a relative
reference scheme-relative under WHATWG resolution. -/
def startsWithSlashSlash (s : String) : Bool :=
  s.data.take 2 = ['/', '/']

/-- The URL a dispatch targets.  url is a caller-supplied URL object used
verbatim; originRelative is the result of resolving a reference beginning
with a single slash against a base (the base origin followed by the
reference); schemeRelative is the result of resolving a reference
beginning with two slashes (the base contributes only its scheme and the
reference supplies the host). -/
inductive ResolvedURL where
  | url (u : URLModel)
  | originRelative (origin : String) (reference : String)
  | schemeRelative (scheme : String) (reference : String)
deriving DecidableEq

/-- The href of a resolved URL (before WHATWG normalization, which applies
identically to every reading compared in this development). -/
def ResolvedURL.href : ResolvedURL → String
  | .url u => u.origin ++ u.pathname
  | .originRelative origin reference => origin ++ reference
  | .schemeRelative scheme reference => scheme ++ ":" ++ reference

/-- The WHATWG constructor new URL(reference, base) restricted to the
references determineUrlToFetch builds when a base exists, which always
begin with a slash: a reference beginning with two slashes is
scheme-relative, any other such reference resolves against the base
origin. -/
def newURL (reference : String) (base : URLModel) : ResolvedURL :=
  if startsWithSlashSlash reference then .schemeRelative base.scheme reference
  else .originRelative base.origin reference

/-- The two shapes of the url parameters accepted by the verbs, split by
isParametersWithUrl in src/http-fetcher.ts. -/
inductive UrlParameters where
  | withUrl (url : URLModel)
  | withPathname (pathname : String)

/-- determineUrlToFetch from src/http-fetcher.ts.  A supplied URL is
returned verbatim.  Otherwise basePath is the base pathname with trailing
slashes stripped and extendedPath the supplied pathname with leading
slashes stripped, joined with one slash and resolved against the base.
When no base URL is configured the template string degenerates to a
relative reference against an undefined base and the URL constructor
throws a TypeError, modelled as the error case. -/
def determineUrlToFetch (baseUrl : Option URLModel) (urlParameters : UrlParameters) :
    Except Unit ResolvedURL :=
  match urlParameters with
  | .withUrl url => .ok (.url url)
  | .withPathname pathname =>
    match baseUrl with
    | none => .error ()
    | some base =>
      .ok (newURL
        (stripTrailingSlashes base.pathname ++ "/" ++ stripLeadingSlashes pathname)
        base)

/-- The seven tokens of src/http-method.ts. -/
inductive HTTPMethod where
  | DELETE | GET | HEAD | OPTIONS | POST | PUT | PATCH
deriving DecidableEq

/-- Values a JS computation can throw: a ky HTTPError, any other Error, or
a value that is not an Error object at all. -/
inductive ThrownValue where
  | http (error : HTTPErrorModel)
  | genericError (error : GenericError)
  | nonError (tag : Nat)

/-- A ky response as far as fetch inspects it: the content-type header and
the behavior of its json and text readers, each of which either resolves
or rejects with a thrown value. -/
structure ResponseModel where
  contentType : Option String
  jsonBody : Except ThrownValue Json
  textBody : Except ThrownValue String

/-- JS String.prototype.startsWith: the characters of the search string
are an initial run of the receiver's characters. -/
def strStartsWith (s search : String) : Bool :=
  search.data.isPrefixOf s.data

/-- The content-type test in fetch: the optional-chained startsWith
comparison against application/json, false when the header is absent. -/
def contentTypeIndicatesJson : Option String → Bool
  | some contentType => strStartsWith contentType "application/json"
  | none => false

/-- Per-call request options: the headers layer plus an opaque stand-in
for the options forwarded unchanged (body, credentials, searchParams,
signal, timeout).  An absent headers property spreads as the empty map. -/
structure RequestOptionsModel where
  headers : RequestHeaders
  passthrough : Option Nat

/-- The empty request options object each verb defaults to. -/
def emptyRequestOptions : RequestOptionsModel :=
  ⟨[], none⟩

/-- The options object fetch passes to ky: the request options spread
first, then headers, json and method overridden. -/
structure KyOptionsModel where
  passthrough : Option Nat
  headers : RequestHeaders
  json : Option Json
  method : HTTPMethod

/-- The internal options record fetch receives from each verb. -/
structure InternalFetchOptions where
  method : HTTPMethod
  payload : Option Json
  requestOptions : RequestOptionsModel
  url : ResolvedURL

/-- An error handler registered through addHttpErrorHandler: invoked with
the HTTPError, it either returns or throws. -/
inductive HandlerOutcome where
  | returns
  | throws (value : ThrownValue)

/-- Registered error handler behavior. -/
def ErrorHandler := HTTPErrorModel → HandlerOutcome

/-- The fetcher state a dispatch reads: the construction-time base URL and
initial headers, the runtime header slot and the registered handlers. -/
structure FetcherState where
  baseUrl : Option URLModel
  initialRequestHeaders : RequestHeaders
  requestHeaders : Option RequestHeaders
  httpErrorHandlers : List ErrorHandler

/-- The ky transport dependency: a call on a URL and options that either
resolves with a response or rejects with a thrown value. -/
def Transport := ResolvedURL → KyOptionsModel → Except ThrownValue ResponseModel

/-- A transport that rejects every call with the given value. -/
def constThrow (value : ThrownValue) : Transport :=
  fun _ _ => .error value

/-- A transport that resolves every call with the given response. -/
def constResponse (response : ResponseModel) : Transport :=
  fun _ _ => .ok response

/-- The value a successful dispatch resolves with: the parsed JSON body
for a JSON content type, the raw text body otherwise. -/
inductive SuccessValue where
  | json (value : Json)
  | text (value : String)

/-- The true-myth Result the dispatch resolves with. -/
inductive FetchResult where
  | ok (value : SuccessValue)
  | err (error : HttpFetcherError)

/-- How the dispatch promise settles: resolution with a Result, or
rejection with a thrown value. -/
inductive FetchTermination where
  | returns (result : FetchResult)
  | throws (value : ThrownValue)

/-- One reportError call on the error reporter sink: the message argument
and the error argument. -/
structure Report where
  message : String
  error : HttpFetcherError

/-- Everything observable about one dispatch: how the promise settled, the
reportError calls in order, the handler invocations in order (handler
index in registration order, paired with the argument), and the options
passed to the transport. -/
structure FetchOutput where
  termination : FetchTermination
  reports : List Report
  handlerCalls : List (Nat × HTTPErrorModel)
  sent : KyOptionsModel

/-- The for-of loop over httpErrorHandlers in fetch, started at handler
index i: handlers run in order until one throws; the list of invocations
is returned together with the thrown value if any. -/
def runHandlersFrom (i : Nat) (error : HTTPErrorModel) :
    List ErrorHandler → List (Nat × HTTPErrorModel) × Option ThrownValue
  | [] => ([], none)
  | handler :: rest =>
    match handler error with
    | .returns =>
      match runHandlersFrom (i + 1) error rest with
      | (calls, thrown) => ((i, error) :: calls, thrown)
    | .throws value => ([(i, error)], some value)

/-- The ky options computed at the top of fetch. -/
def mkKyOptions (st : FetcherState) (options : InternalFetchOptions) : KyOptionsModel :=
  ⟨options.requestOptions.passthrough,
   effectiveHeaders st.initialRequestHeaders st.requestHeaders options.requestOptions.headers,
   options.payload,
   options.method⟩

/-- The try block of fetch: await the transport, inspect the content type,
and await the json or text reader; a rejection anywhere lands in the catch
clause with the thrown value. -/
def runTry (call : Except ThrownValue ResponseModel) : Except ThrownValue SuccessValue :=
  match call with
  | .error thrown => .error thrown
  | .ok response =>
    if contentTypeIndicatesJson response.contentType then
      match response.jsonBody with
      | .ok value => .ok (.json value)
      | .error thrown => .error thrown
    else
      match response.textBody with
      | .ok value => .ok (.text value)
      | .error thrown => .error thrown

/-- fetch from src/http-fetcher.ts.  On success the parsed or raw body is
returned as Result.ok.  On a thrown HTTPError: one reportError call, then
the handler loop (a handler throw propagates and rejects the dispatch
promise), then the error response json reader; a parsed body goes through
mapErrorToHttpFetcherError over the HTTPErrorWithResponseBody wrapper,
while a rejecting reader yields the original error as Result.err.  Any
other thrown Error is reported once and returned as Result.err.  A thrown
non-Error falls through to the synthesized could-not-fetch Error, reported
once and returned as Result.err. -/
def fetch (st : FetcherState) (ky : Transport) (options : InternalFetchOptions) : FetchOutput :=
  let kyOptions := mkKyOptions st options
  match runTry (ky options.url kyOptions) with
  | .ok value => ⟨.returns (.ok value), [], [], kyOptions⟩
  | .error (.http error) =>
    let report : Report := ⟨error.message, .httpError error⟩
    match runHandlersFrom 0 error st.httpErrorHandlers with
    | (calls, some thrown) => ⟨.throws thrown, [report], calls, kyOptions⟩
    | (calls, none) =>
      match error.responseJson with
      | some responseJson =>
        ⟨.returns (.err (mapErrorToHttpFetcherError responseJson
            (.withResponseBody error responseJson))),
         [report], calls, kyOptions⟩
      | none => ⟨.returns (.err (.httpError error)), [report], calls, kyOptions⟩
  | .error (.genericError error) =>
    ⟨.returns (.err (.generic error)), [⟨error.message, .generic error⟩], [], kyOptions⟩
  | .error (.nonError _) =>
    let error := HttpFetcherError.couldNotFetch options.url.href
    ⟨.returns (.err error), [⟨error.message, error⟩], [], kyOptions⟩

/-- The parameters of the verbs without payload. -/
structure ParametersWithoutPayload where
  urlParameters : UrlParameters
  requestOptions : Option RequestOptionsModel

/-- The parameters of the verbs with a JSON payload. -/
structure ParametersWithJsonPayload where
  urlParameters : UrlParameters
  requestOptions : Option RequestOptionsModel
  payload : Json

/-- How a public verb call settles: the promise resolves with the dispatch
output, or rejects because determineUrlToFetch threw before fetch ran. -/
inductive VerbOutput where
  | returned (output : FetchOutput)
  | threw

/-- Whether a dispatch termination is a resolution with a Result value. -/
def FetchTermination.isReturns : FetchTermination → Bool
  | .returns _ => true
  | .throws _ => false

/-- Whether a verb call resolved with a Result value (neither a URL
constructor throw nor a handler throw rejected its promise). -/
def VerbOutput.neverThrew : VerbOutput → Bool
  | .returned output => output.termination.isReturns
  | .threw => false

/-- The dispatch output of a verb call when its promise resolved. -/
def VerbOutput.outputOf : VerbOutput → Option FetchOutput
  | .returned output => some output
  | .threw => none

/-- The get verb. -/
def get (st : FetcherState) (ky : Transport) (parameters : ParametersWithoutPayload) :
    VerbOutput :=
  match determineUrlToFetch st.baseUrl parameters.urlParameters with
  | .error _ => .threw
  | .ok url =>
    .returned (fetch st ky ⟨.GET, none, parameters.requestOptions.getD emptyRequestOptions, url⟩)

/-- The post verb. -/
def post (st : FetcherState) (ky : Transport) (parameters : ParametersWithoutPayload) :
    VerbOutput :=
  match determineUrlToFetch st.baseUrl parameters.urlParameters with
  | .error _ => .threw
  | .ok url =>
    .returned (fetch st ky ⟨.POST, none, parameters.requestOptions.getD emptyRequestOptions, url⟩)

/-- The put verb. -/
def put (st : FetcherState) (ky : Transport) (parameters : ParametersWithoutPayload) :
    VerbOutput :=
  match determineUrlToFetch st.baseUrl parameters.urlParameters with
  | .error _ => .threw
  | .ok url =>
    .returned (fetch st ky ⟨.PUT, none, parameters.requestOptions.getD emptyRequestOptions, url⟩)

/-- The delete verb. -/
def delete (st : FetcherState) (ky : Transport) (parameters : ParametersWithoutPayload) :
    VerbOutput :=
  match determineUrlToFetch st.baseUrl parameters.urlParameters with
  | .error _ => .threw
  | .ok url =>
    .returned (fetch st ky ⟨.DELETE, none, parameters.requestOptions.getD emptyRequestOptions, url⟩)

/-- The postJson verb. -/
def postJson (st : FetcherState) (ky : Transport) (parameters : ParametersWithJsonPayload) :
    VerbOutput :=
  match determineUrlToFetch st.baseUrl parameters.urlParameters with
  | .error _ => .threw
  | .ok url =>
    .returned (fetch st ky
      ⟨.POST, some parameters.payload, parameters.requestOptions.getD emptyRequestOptions, url⟩)

/-- The putJson verb. -/
def putJson (st : FetcherState) (ky : Transport) (parameters : ParametersWithJsonPayload) :
    VerbOutput :=
  match determineUrlToFetch st.baseUrl parameters.urlParameters with
  | .error _ => .threw
  | .ok url =>
    .returned (fetch st ky
      ⟨.PUT, some parameters.payload, parameters.requestOptions.getD emptyRequestOptions, url⟩)

/-- The patchJson verb. -/
def patchJson (st : FetcherState) (ky : Transport) (parameters : ParametersWithJsonPayload) :
    VerbOutput :=
  match determineUrlToFetch st.baseUrl parameters.urlParameters with
  | .error _ => .threw
  | .ok url =>
    .returned (fetch st ky
      ⟨.PATCH, some parameters.payload, parameters.requestOptions.getD emptyRequestOptions, url⟩)

/-- The deleteJson verb. -/
def deleteJson (st : FetcherState) (ky : Transport) (parameters : ParametersWithJsonPayload) :
    VerbOutput :=
  match determineUrlToFetch st.baseUrl parameters.urlParameters with
  | .error _ => .threw
  | .ok url =>
    .returned (fetch st ky
      ⟨.DELETE, some parameters.payload, parameters.requestOptions.getD emptyRequestOptions, url⟩)

/-- The eight public verb operations. -/
inductive Verb where
  | get | post | put | delete | postJson | putJson | patchJson | deleteJson
deriving DecidableEq

/-- The fixed HTTP method token each verb supplies. -/
def methodOfVerb : Verb → HTTPMethod
  | .get => .GET
  | .post => .POST
  | .put => .PUT
  | .delete => .DELETE
  | .postJson => .POST
  | .putJson => .PUT
  | .patchJson => .PATCH
  | .deleteJson => .DELETE

/-- The JSON payload each verb forwards: present for the four JSON verbs,
absent for the others. -/
def payloadOfVerb : Verb → Json → Option Json
  | .get, _ => none
  | .post, _ => none
  | .put, _ => none
  | .delete, _ => none
  | .postJson, payload => some payload
  | .putJson, payload => some payload
  | .patchJson, payload => some payload
  | .deleteJson, payload => some payload

/-- Run one of the eight verbs on common parameters; the payload argument
is used by the four JSON verbs only. -/
def runVerbOp (v : Verb) (st : FetcherState) (ky : Transport)
    (parameters : ParametersWithoutPayload) (payload : Json) : VerbOutput :=
  match v with
  | .get => get st ky parameters
  | .post => post st ky parameters
  | .put => put st ky parameters
  | .delete => delete st ky parameters
  | .postJson => postJson st ky ⟨parameters.urlParameters, parameters.requestOptions, payload⟩
  | .putJson => putJson st ky ⟨parameters.urlParameters, parameters.requestOptions, payload⟩
  | .patchJson => patchJson st ky ⟨parameters.urlParameters, parameters.requestOptions, payload⟩
  | .deleteJson => deleteJson st ky ⟨parameters.urlParameters, parameters.requestOptions, payload⟩

/-! Helper lemmas shared by the claim theorems. -/

theorem orElseO_none_right (a : Option String) : orElseO a none = a := by
  cases a <;> rfl

theorem orElseO_assoc (a b c : Option String) :
    orElseO (orElseO a b) c = orElseO a (orElseO b c) := by
  cases a <;> rfl

theorem hLookup_append (a b : RequestHeaders) (key : String) :
    hLookup (a ++ b) key = orElseO (hLookup b key) (hLookup a key) := by
  induction a with
  | nil => simp [hLookup, orElseO_none_right]
  | cons p rest ih =>
    simp only [List.cons_append, hLookup, List.append_eq]
    rw [ih, orElseO_assoc]

theorem runHandlersFrom_all_normal (error : HTTPErrorModel) (handlers : List ErrorHandler)
    (hall : ∀ h ∈ handlers, h error = HandlerOutcome.returns) :
    ∀ i, runHandlersFrom i error handlers =
      ((List.range handlers.length).map (fun j => (i + j, error)), none) := by
  induction handlers with
  | nil => intro i; simp [runHandlersFrom]
  | cons handler rest ih =>
    intro i
    have hh := hall handler (List.mem_cons_self _ _)
    have hrest : ∀ h ∈ rest, h error = HandlerOutcome.returns :=
      fun h hm => hall h (List.mem_cons_of_mem _ hm)
    have harith : ∀ j, (i + 1) + j = i + (j + 1) := fun j => by omega
    simp [runHandlersFrom, hh, ih hrest (i + 1), List.range_succ_eq_map,
      List.map_map, Function.comp, harith]

theorem runHandlersFrom_throws (error : HTTPErrorModel) (value : ThrownValue)
    (pre post : List ErrorHandler) (thrower : ErrorHandler)
    (hpre : ∀ h ∈ pre, h error = HandlerOutcome.returns)
    (hthrow : thrower error = HandlerOutcome.throws value) :
    ∀ i, runHandlersFrom i error (pre ++ thrower :: post) =
      ((List.range (pre.length + 1)).map (fun j => (i + j, error)), some value) := by
  induction pre with
  | nil => intro i; simp [runHandlersFrom, hthrow, List.range_succ]
  | cons handler rest ih =>
    intro i
    have hh := hpre handler (List.mem_cons_self _ _)
    have hrest : ∀ h ∈ rest, h error = HandlerOutcome.returns :=
      fun h hm => hpre h (List.mem_cons_of_mem _ hm)
    have harith : ∀ j, (i + 1) + j = i + (j + 1) := fun j => by omega
    simp [runHandlersFrom, hh, ih hrest (i + 1), List.range_succ_eq_map,
      List.map_map, Function.comp, harith]

theorem dropTrailing_replicate (q : Char → Bool) (c : Char) (hq : q c = true) (n : Nat) :
    dropTrailing q (List.replicate n c) = [] := by
  induction n with
  | zero => rfl
  | succ n ih => simp [List.replicate_succ, dropTrailing, ih, hq]

theorem dropTrailing_append_replicate (q : Char → Bool) (c : Char) (hq : q c = true)
    (l : List Char) (n : Nat) :
    dropTrailing q (l ++ List.replicate n c) = dropTrailing q l := by
  induction l with
  | nil => simpa using dropTrailing_replicate q c hq n
  | cons d rest ih =>
    simp only [List.cons_append, dropTrailing, List.append_eq]
    rw [ih]

theorem dropTrailing_append_tail (q : Char → Bool) (l : List Char) :
    ∃ t, l = dropTrailing q l ++ t := by
  induction l with
  | nil => exact ⟨[], rfl⟩
  | cons c rest ih =>
    obtain ⟨t, ht⟩ := ih
    cases hr : dropTrailing q rest with
    | nil =>
      by_cases hqc : q c
      · exact ⟨c :: rest, by simp [dropTrailing, hr, hqc]⟩
      · refine ⟨t, ?_⟩
        rw [hr] at ht
        simp only [dropTrailing, hr, hqc, List.isEmpty_nil, if_true, if_false,
          Bool.false_eq_true]
        simpa using ht
    | cons x xs =>
      refine ⟨t, ?_⟩
      rw [hr] at ht
      simp only [dropTrailing, hr, List.isEmpty_cons, if_false, Bool.false_eq_true]
      simpa using ht

theorem dropTrailing_last_not (q : Char → Bool) (l : List Char) :
    dropTrailing q l = [] ∨ ∃ r x, dropTrailing q l = r ++ [x] ∧ q x = false := by
  induction l with
  | nil => exact .inl rfl
  | cons c rest ih =>
    cases hr : dropTrailing q rest with
    | nil =>
      by_cases hqc : q c
      · exact .inl (by simp [dropTrailing, hr, hqc])
      · refine .inr ⟨[], c, by simp [dropTrailing, hr, hqc], by simpa using hqc⟩
    | cons x xs =>
      rcases ih with h | ⟨r, y, hry, hqy⟩
      · rw [h] at hr; cases hr
      · refine .inr ⟨c :: r, y, ?_, hqy⟩
        simp only [dropTrailing, hry]
        simp [hry.symm.trans hr]

theorem dropWhile_replicate_append (q : Char → Bool) (c : Char) (hq : q c = true)
    (n : Nat) (l : List Char) :
    (List.replicate n c ++ l).dropWhile q = l.dropWhile q := by
  induction n with
  | zero => rfl
  | succ n ih => simp [List.replicate_succ, List.dropWhile_cons, hq, ih]

theorem dropWhile_head_not (q : Char → Bool) (l : List Char) (x : Char)
    (hx : (l.dropWhile q).head? = some x) : q x = false := by
  induction l with
  | nil => cases hx
  | cons c rest ih =>
    by_cases hqc : q c
    · exact ih (by simpa [List.dropWhile_cons, hqc] using hx)
    · have hd : (c :: rest).dropWhile q = c :: rest := by simp [List.dropWhile_cons, hqc]
      rw [hd] at hx
      simp only [List.head?_cons, Option.some.injEq] at hx
      subst hx
      simpa using hqc

theorem runHandlersFrom_all_normal_zero (error : HTTPErrorModel)
    (handlers : List ErrorHandler)
    (hall : ∀ h ∈ handlers, h error = HandlerOutcome.returns) :
    runHandlersFrom 0 error handlers =
      ((List.range handlers.length).map (fun j => (j, error)), none) := by
  rw [runHandlersFrom_all_normal error handlers hall 0]
  simp

theorem runHandlersFrom_throws_zero (error : HTTPErrorModel) (value : ThrownValue)
    (pre post : List ErrorHandler) (thrower : ErrorHandler)
    (hpre : ∀ h ∈ pre, h error = HandlerOutcome.returns)
    (hthrow : thrower error = HandlerOutcome.throws value) :
    runHandlersFrom 0 error (pre ++ thrower :: post) =
      ((List.range (pre.length + 1)).map (fun j => (j, error)), some value) := by
  rw [runHandlersFrom_throws error value pre post thrower hpre hthrow 0]
  simp

theorem fetch_http_unfold (st : FetcherState) (options : InternalFetchOptions)
    (error : HTTPErrorModel) :
    fetch st (constThrow (.http error)) options
      = match runHandlersFrom 0 error st.httpErrorHandlers with
        | (calls, some thrown) =>
          ⟨.throws thrown, [⟨error.message, .httpError error⟩], calls, mkKyOptions st options⟩
        | (calls, none) =>
          match error.responseJson with
          | some responseJson =>
            ⟨.returns (.err (mapErrorToHttpFetcherError responseJson
                (.withResponseBody error responseJson))),
             [⟨error.message, .httpError error⟩], calls, mkKyOptions st options⟩
          | none =>
            ⟨.returns (.err (.httpError error)),
             [⟨error.message, .httpError error⟩], calls, mkKyOptions st options⟩ := rfl

theorem fetch_sent (st : FetcherState) (ky : Transport) (options : InternalFetchOptions) :
    (fetch st ky options).sent = mkKyOptions st options := by
  simp only [fetch]
  split
  · rfl
  · split
    · rfl
    · split <;> rfl
  · rfl
  · rfl

theorem fetch_termination_returns (st : FetcherState) (ky : Transport)
    (options : InternalFetchOptions)
    (hhandlers : ∀ h ∈ st.httpErrorHandlers, ∀ e, h e = HandlerOutcome.returns) :
    ∃ r, (fetch st ky options).termination = FetchTermination.returns r := by
  simp only [fetch]
  split
  · exact ⟨_, rfl⟩
  · rename_i e heq
    rw [runHandlersFrom_all_normal e st.httpErrorHandlers (fun h hm => hhandlers h hm e) 0]
    cases hj : e.responseJson <;> exact ⟨_, rfl⟩
  · exact ⟨_, rfl⟩
  · exact ⟨_, rfl⟩

theorem startsWithSlashSlash_joined (p s : String)
    (h1 : p.data.head? = some '/')
    (h2 : startsWithSlashSlash p = false) :
    startsWithSlashSlash (stripTrailingSlashes p ++ "/" ++ stripLeadingSlashes s) = false := by
  have h2' : ¬ p.data.take 2 = ['/', '/'] := by
    simpa [startsWithSlashSlash] using h2
  have hslash : ("/" : String).data = ['/'] := rfl
  have hdata : (stripTrailingSlashes p ++ "/" ++ stripLeadingSlashes s).data
      = dropTrailing (fun c => c = '/') p.data
        ++ '/' :: s.data.dropWhile (fun c => c = '/') := by
    simp [stripTrailingSlashes, stripLeadingSlashes, String.data_append, hslash,
      List.append_assoc]
  simp only [startsWithSlashSlash, hdata, decide_eq_false_iff_not]
  obtain ⟨t, ht⟩ := dropTrailing_append_tail (fun c => c = '/') p.data
  cases hsp : dropTrailing (fun c => c = '/') p.data with
  | nil =>
    cases hext : s.data.dropWhile (fun c => c = '/') with
    | nil => simp
    | cons y ys =>
      have hy := dropWhile_head_not (fun c => c = '/') s.data y (by rw [hext]; rfl)
      simp only [decide_eq_false_iff_not] at hy
      simp [hy]
  | cons a sp' =>
    rw [hsp] at ht
    cases hsp2 : sp' with
    | nil =>
      subst hsp2
      rcases dropTrailing_last_not (fun c => c = '/') p.data with hn | ⟨r, x, hrx, hqx⟩
      · rw [hn] at hsp; cases hsp
      · rw [hsp] at hrx
        have hax : a = x := by
          cases r with
          | nil => simpa using hrx
          | cons rh rt => simp at hrx
        rw [ht] at h1
        simp only [List.singleton_append, List.head?_cons, Option.some.injEq] at h1
        rw [← hax, h1] at hqx
        simp at hqx
    | cons b sp'' =>
      subst hsp2
      rw [ht] at h1 h2'
      simp only [List.cons_append, List.head?_cons, Option.some.injEq] at h1
      subst h1
      have hb : b ≠ '/' := by
        intro hb
        apply h2'
        subst hb
        simp [List.take_succ_cons]
      simp [List.take_succ_cons, hb]

theorem stripTrailingSlashes_append_slashes (s : String) (n : Nat) :
    stripTrailingSlashes (s ++ slashes n) = stripTrailingSlashes s := by
  have hd : (s ++ slashes n).data = s.data ++ List.replicate n '/' := by
    rw [String.data_append]; rfl
  simp only [stripTrailingSlashes, hd]
  rw [dropTrailing_append_replicate (fun c => c = '/') '/' (by simp) s.data n]

theorem stripLeadingSlashes_slashes_append (s : String) (m : Nat) :
    stripLeadingSlashes (slashes m ++ s) = stripLeadingSlashes s := by
  have hd : (slashes m ++ s).data = List.replicate m '/' ++ s.data := by
    rw [String.data_append]; rfl
  simp only [stripLeadingSlashes, hd]
  rw [dropWhile_replicate_append (fun c => c = '/') '/' (by simp) m s.data]

theorem runVerbOp_unfold (v : Verb) (st : FetcherState) (ky : Transport)
    (parameters : ParametersWithoutPayload) (payload : Json) (u : ResolvedURL)
    (hurl : determineUrlToFetch st.baseUrl parameters.urlParameters = .ok u) :
    runVerbOp v st ky parameters payload
      = .returned (fetch st ky
          ⟨methodOfVerb v, payloadOfVerb v payload,
           parameters.requestOptions.getD emptyRequestOptions, u⟩) := by
  cases v <;>
    simp only [runVerbOp, get, post, put, delete, postJson, putJson, patchJson, deleteJson,
      methodOfVerb, payloadOfVerb] <;>
    rw [hurl]

/-! Claim theorems. -/

/-- C2: for every combination of initial configuration headers, runtime
headers set after construction, and per-call request-option headers, the
header map passed to the transport on dispatch equals the shallow merge of
the three layers in increasing priority initial, then runtime, then
per-call, with the last writer winning per key, recomputed on every
dispatch: for every key, the value sent is the per-call value when
present, else the runtime value when present, else the initial value. -/
theorem C2_headers_sent_are_layered_merge (st : FetcherState) (ky : Transport)
    (options : InternalFetchOptions) (key : String) :
    hLookup (fetch st ky options).sent.headers key
      = orElseO (hLookup options.requestOptions.headers key)
          (orElseO (hLookup (st.requestHeaders.getD []) key)
            (hLookup st.initialRequestHeaders key)) := by
  rw [fetch_sent]
  unfold mkKyOptions effectiveHeaders
  cases h : st.requestHeaders with
  | none => simp [hLookup_append, hLookup, orElseO]
  | some runtime => simp [hLookup_append, orElseO_assoc]

/-- C7: for every failure that is a generic error object without
HTTP-status semantics, the dispatch reports it to the error sink exactly
once, invokes zero registered observers, and returns the error unchanged
as Failure. -/
theorem C7_generic_error_single_report_no_handlers (st : FetcherState)
    (options : InternalFetchOptions) (error : GenericError) :
    (fetch st (constThrow (.genericError error)) options).termination
        = .returns (.err (.generic error))
    ∧ (fetch st (constThrow (.genericError error)) options).reports
        = [⟨error.message, .generic error⟩]
    ∧ (fetch st (constThrow (.genericError error)) options).handlerCalls = [] :=
  ⟨rfl, rfl, rfl⟩

/-- C8: assigning the runtime-headers property performs a one-way shallow
merge: the slot always ends up holding a map whose value at each key is
the newly assigned value when the new map mentions the key and the
previous runtime value otherwise, so new keys win and unmentioned keys are
never cleared; when no runtime headers were set the new mapping becomes
the sole runtime layer. -/
theorem C8_set_requestHeaders_one_way_merge (current : Option RequestHeaders)
    (assigned : RequestHeaders) (key : String) :
    ∃ merged, setRequestHeaders current assigned = some merged
      ∧ hLookup merged key
          = orElseO (hLookup assigned key) (hLookup (current.getD []) key) := by
  cases current with
  | none =>
    refine ⟨assigned, rfl, ?_⟩
    simp [hLookup, orElseO_none_right]
  | some headers =>
    exact ⟨headers ++ assigned, rfl, hLookup_append headers assigned key⟩

/-- C9: a transport success whose content-type header starts with
application/json but whose body reader throws an Error yields Failure
carrying that parse error, exactly one report to the sink, and zero
handler invocations: the failure takes the generic-error path. -/
theorem C9_json_reader_throw_takes_generic_path (st : FetcherState)
    (options : InternalFetchOptions) (response : ResponseModel) (error : GenericError)
    (hct : contentTypeIndicatesJson response.contentType = true)
    (hjson : response.jsonBody = .error (.genericError error)) :
    (fetch st (constResponse response) options).termination
        = .returns (.err (.generic error))
    ∧ (fetch st (constResponse response) options).reports
        = [⟨error.message, .generic error⟩]
    ∧ (fetch st (constResponse response) options).handlerCalls = [] := by
  have hrt : runTry (constResponse response options.url (mkKyOptions st options))
      = .error (.genericError error) := by
    simp [constResponse, runTry, hct, hjson]
  simp only [fetch]
  rw [hrt]
  exact ⟨rfl, rfl, rfl⟩

/-- Witness for C9: a concrete response with an application/json content
type and a json reader that throws a parse Error. -/
theorem C9_witness :
    contentTypeIndicatesJson (some "application/json utf8") = true
    ∧ (fetch ⟨none, [], none, []⟩
          (constResponse ⟨some "application/json utf8",
            .error (.genericError ⟨"Unexpected token", 7⟩), .ok "someResponseText"⟩)
          ⟨.GET, none, emptyRequestOptions, .url ⟨"http", "example.com", "/p"⟩⟩).termination
        = .returns (.err (.generic ⟨"Unexpected token", 7⟩))
    ∧ (fetch ⟨none, [], none, []⟩
          (constResponse ⟨some "application/json utf8",
            .error (.genericError ⟨"Unexpected token", 7⟩), .ok "someResponseText"⟩)
          ⟨.GET, none, emptyRequestOptions, .url ⟨"http", "example.com", "/p"⟩⟩).reports
        = [⟨"Unexpected token", .generic ⟨"Unexpected token", 7⟩⟩]
    ∧ (fetch ⟨none, [], none, []⟩
          (constResponse ⟨some "application/json utf8",
            .error (.genericError ⟨"Unexpected token", 7⟩), .ok "someResponseText"⟩)
          ⟨.GET, none, emptyRequestOptions, .url ⟨"http", "example.com", "/p"⟩⟩).handlerCalls
        = [] := by
  refine ⟨rfl, ?_⟩
  exact C9_json_reader_throw_takes_generic_path ⟨none, [], none, []⟩
    ⟨.GET, none, emptyRequestOptions, .url ⟨"http", "example.com", "/p"⟩⟩
    ⟨some "application/json utf8",
      .error (.genericError ⟨"Unexpected token", 7⟩), .ok "someResponseText"⟩
    ⟨"Unexpected token", 7⟩ rfl rfl

/-- C10: when the k-th registered observer throws on a transport-level
HTTP error, the observers registered after it are not invoked and the
dispatch does not return a Result: the thrown value propagates as a
rejection, while the error sink has been reported exactly once before the
loop. -/
theorem C10_handler_throw_rejects_after_single_report (st : FetcherState)
    (pre post : List ErrorHandler) (thrower : ErrorHandler)
    (options : InternalFetchOptions) (error : HTTPErrorModel) (value : ThrownValue)
    (hst : st.httpErrorHandlers = pre ++ thrower :: post)
    (hpre : ∀ h ∈ pre, h error = HandlerOutcome.returns)
    (hthrow : thrower error = HandlerOutcome.throws value) :
    (fetch st (constThrow (.http error)) options).termination = .throws value
    ∧ (fetch st (constThrow (.http error)) options).reports
        = [⟨error.message, .httpError error⟩]
    ∧ (fetch st (constThrow (.http error)) options).handlerCalls
        = (List.range (pre.length + 1)).map (fun j => (j, error)) := by
  have hrun := runHandlersFrom_throws_zero error value pre post thrower hpre hthrow
  rw [fetch_http_unfold, hst, hrun]
  exact ⟨rfl, rfl, rfl⟩

/-- Witness for C10: two well-behaved handlers around one that throws. -/
theorem C10_witness :
    (fetch ⟨none, [], none,
        [fun _ => HandlerOutcome.returns, fun _ => HandlerOutcome.throws (.nonError 5),
         fun _ => HandlerOutcome.returns]⟩
        (constThrow (.http ⟨"Request failed with status code 500", none, 0⟩))
        ⟨.GET, none, emptyRequestOptions, .url ⟨"http", "example.com", "/p"⟩⟩).termination
      = .throws (.nonError 5)
    ∧ (fetch ⟨none, [], none,
        [fun _ => HandlerOutcome.returns, fun _ => HandlerOutcome.throws (.nonError 5),
         fun _ => HandlerOutcome.returns]⟩
        (constThrow (.http ⟨"Request failed with status code 500", none, 0⟩))
        ⟨.GET, none, emptyRequestOptions, .url ⟨"http", "example.com", "/p"⟩⟩).reports
      = [⟨"Request failed with status code 500",
          .httpError ⟨"Request failed with status code 500", none, 0⟩⟩]
    ∧ (fetch ⟨none, [], none,
        [fun _ => HandlerOutcome.returns, fun _ => HandlerOutcome.throws (.nonError 5),
         fun _ => HandlerOutcome.returns]⟩
        (constThrow (.http ⟨"Request failed with status code 500", none, 0⟩))
        ⟨.GET, none, emptyRequestOptions, .url ⟨"http", "example.com", "/p"⟩⟩).handlerCalls
      = (List.range 2).map (fun j => (j, ⟨"Request failed with status code 500", none, 0⟩)) := by
  exact C10_handler_throw_rejects_after_single_report
    ⟨none, [], none,
      [fun _ => HandlerOutcome.returns, fun _ => HandlerOutcome.throws (.nonError 5),
       fun _ => HandlerOutcome.returns]⟩
    [fun _ => HandlerOutcome.returns] [fun _ => HandlerOutcome.returns]
    (fun _ => HandlerOutcome.throws (.nonError 5))
    ⟨.GET, none, emptyRequestOptions, .url ⟨"http", "example.com", "/p"⟩⟩
    ⟨"Request failed with status code 500", none, 0⟩ (.nonError 5) rfl
    (by intro h hm; rcases List.mem_singleton.mp hm with rfl; rfl) rfl

/-- C1: for every transport-level HTTP error whose response body is an
object with a non-empty errors list of errorCode and message entries,
every verb operation (provided every registered observer returns
normally, the situation C10 sets aside) resolves with Failure carrying
the composite error whose message is the first entry errorCode, a colon
and a space, and the first entry message, reports to the error sink
exactly once, and invokes each registered observer exactly once, in
registration order, with the original error object. -/
theorem C1_http_error_with_backend_body (v : Verb) (st : FetcherState)
    (parameters : ParametersWithoutPayload) (payload : Json) (u : ResolvedURL)
    (error : HTTPErrorModel) (body : Json) (be : BackendError) (bes : List BackendError)
    (hurl : determineUrlToFetch st.baseUrl parameters.urlParameters = .ok u)
    (hbody : error.responseJson = some body)
    (hparse : safeParseBackendErrors body = some (be :: bes))
    (hhandlers : ∀ h ∈ st.httpErrorHandlers, h error = HandlerOutcome.returns) :
    (runVerbOp v st (constThrow (.http error)) parameters payload).outputOf.map
        FetchOutput.termination
      = some (.returns (.err (.composite be.errorCode
          (be.errorCode ++ ": " ++ be.message) (.withResponseBody error body))))
    ∧ (runVerbOp v st (constThrow (.http error)) parameters payload).outputOf.map
        FetchOutput.reports
      = some [⟨error.message, .httpError error⟩]
    ∧ (runVerbOp v st (constThrow (.http error)) parameters payload).outputOf.map
        FetchOutput.handlerCalls
      = some ((List.range st.httpErrorHandlers.length).map (fun j => (j, error))) := by
  have hrun := runHandlersFrom_all_normal_zero error st.httpErrorHandlers hhandlers
  have hmap : mapErrorToHttpFetcherError body (.withResponseBody error body)
      = .composite be.errorCode (be.errorCode ++ ": " ++ be.message)
          (.withResponseBody error body) := by
    simp [mapErrorToHttpFetcherError, hparse]
  rw [runVerbOp_unfold v st (constThrow (.http error)) parameters payload u hurl,
    fetch_http_unfold, hrun, hbody]
  refine ⟨?_, ?_, ?_⟩ <;> simp [hmap, VerbOutput.outputOf]

/-- Witness for C1: a structured error body with one entry, two observers,
the get verb, a caller-supplied URL. -/
theorem C1_witness :
    (runVerbOp .get
        ⟨none, [], none, [fun _ => HandlerOutcome.returns, fun _ => HandlerOutcome.returns]⟩
        (constThrow (.http ⟨"Request failed with status code 422",
          some (.obj [("errors", .arr [.obj [("errorCode", .str "E1"),
            ("message", .str "bad")]])]), 0⟩))
        ⟨.withUrl ⟨"http", "example.com", "/p"⟩, none⟩ .null).outputOf.map
        FetchOutput.termination
      = some (.returns (.err (.composite "E1" ("E1" ++ ": " ++ "bad")
          (.withResponseBody ⟨"Request failed with status code 422",
            some (.obj [("errors", .arr [.obj [("errorCode", .str "E1"),
              ("message", .str "bad")]])]), 0⟩
            (.obj [("errors", .arr [.obj [("errorCode", .str "E1"),
              ("message", .str "bad")]])])))))
    ∧ (runVerbOp .get
        ⟨none, [], none, [fun _ => HandlerOutcome.returns, fun _ => HandlerOutcome.returns]⟩
        (constThrow (.http ⟨"Request failed with status code 422",
          some (.obj [("errors", .arr [.obj [("errorCode", .str "E1"),
            ("message", .str "bad")]])]), 0⟩))
        ⟨.withUrl ⟨"http", "example.com", "/p"⟩, none⟩ .null).outputOf.map
        FetchOutput.reports
      = some [⟨"Request failed with status code 422",
          .httpError ⟨"Request failed with status code 422",
            some (.obj [("errors", .arr [.obj [("errorCode", .str "E1"),
              ("message", .str "bad")]])]), 0⟩⟩]
    ∧ (runVerbOp .get
        ⟨none, [], none, [fun _ => HandlerOutcome.returns, fun _ => HandlerOutcome.returns]⟩
        (constThrow (.http ⟨"Request failed with status code 422",
          some (.obj [("errors", .arr [.obj [("errorCode", .str "E1"),
            ("message", .str "bad")]])]), 0⟩))
        ⟨.withUrl ⟨"http", "example.com", "/p"⟩, none⟩ .null).outputOf.map
        FetchOutput.handlerCalls
      = some ((List.range 2).map (fun j => (j, ⟨"Request failed with status code 422",
          some (.obj [("errors", .arr [.obj [("errorCode", .str "E1"),
            ("message", .str "bad")]])]), 0⟩))) := by
  exact C1_http_error_with_backend_body .get
    ⟨none, [], none, [fun _ => HandlerOutcome.returns, fun _ => HandlerOutcome.returns]⟩
    ⟨.withUrl ⟨"http", "example.com", "/p"⟩, none⟩ .null
    (.url ⟨"http", "example.com", "/p"⟩)
    ⟨"Request failed with status code 422",
      some (.obj [("errors", .arr [.obj [("errorCode", .str "E1"),
        ("message", .str "bad")]])]), 0⟩
    (.obj [("errors", .arr [.obj [("errorCode", .str "E1"), ("message", .str "bad")]])])
    ⟨"E1", "bad"⟩ [] rfl rfl rfl
    (by intro h hm
        rcases List.mem_cons.mp hm with rfl | hm2
        · rfl
        rcases List.mem_cons.mp hm2 with rfl | hm3
        · rfl
        cases hm3)

/-- Counterexample to C3 as stated: for a base URL whose pathname begins
with two slashes the joined reference starts with two slashes, so the URL
constructor resolves it as a scheme-relative reference taking its host
from the reference, not against the base origin as the claim requires. -/
theorem C3_counterexample :
    determineUrlToFetch (some ⟨"http", "example.com", "//x"⟩) (.withPathname "/s")
      = .ok (.schemeRelative "http" "//x/s")
    ∧ ResolvedURL.schemeRelative "http" "//x/s"
        ≠ ResolvedURL.originRelative "http://example.com" "//x/s" := by
  exact ⟨rfl, by decide⟩

/-- C3 amended: for every configured base URL whose pathname begins with a
single slash (every parsed http URL pathname begins with a slash; the
two-slash case is the counterexample), the resolved URL is the base origin
followed by the base pathname with all trailing slashes stripped, one
slash, and the supplied segment with all leading slashes stripped; and the
join is insensitive to any number of extra trailing slashes on the base
pathname and extra leading slashes on the segment. -/
theorem C3_amended_join_and_idempotence (b : URLModel) (s : String) (n m : Nat)
    (h1 : b.pathname.data.head? = some '/')
    (h2 : startsWithSlashSlash b.pathname = false) :
    determineUrlToFetch (some b) (.withPathname s)
      = .ok (.originRelative b.origin
          (stripTrailingSlashes b.pathname ++ "/" ++ stripLeadingSlashes s))
    ∧ determineUrlToFetch (some ⟨b.scheme, b.host, b.pathname ++ slashes n⟩)
        (.withPathname (slashes m ++ s))
      = determineUrlToFetch (some b) (.withPathname s) := by
  have hnot := startsWithSlashSlash_joined b.pathname s h1 h2
  constructor
  · simp [determineUrlToFetch, newURL, hnot]
  · simp [determineUrlToFetch, newURL, URLModel.origin,
      stripTrailingSlashes_append_slashes, stripLeadingSlashes_slashes_append]

/-- Witness for C3 amended: the base and segment of the spec example, with
one extra trailing slash on the base and two extra leading slashes on the
segment. -/
theorem C3_amended_witness :
    "/the-base-path".data.head? = some '/'
    ∧ startsWithSlashSlash "/the-base-path" = false
    ∧ (determineUrlToFetch (some ⟨"http", "example.com", "/the-base-path"⟩)
          (.withPathname "/some-other-path")
        = .ok (.originRelative (URLModel.origin ⟨"http", "example.com", "/the-base-path"⟩)
            (stripTrailingSlashes "/the-base-path" ++ "/"
              ++ stripLeadingSlashes "/some-other-path"))
      ∧ determineUrlToFetch
          (some ⟨"http", "example.com", "/the-base-path" ++ slashes 1⟩)
          (.withPathname (slashes 2 ++ "/some-other-path"))
        = determineUrlToFetch (some ⟨"http", "example.com", "/the-base-path"⟩)
            (.withPathname "/some-other-path")) := by
  refine ⟨rfl, by decide, ?_⟩
  exact C3_amended_join_and_idempotence ⟨"http", "example.com", "/the-base-path"⟩
    "/some-other-path" 1 2 rfl (by decide)

/-- Counterexample to C4 as stated: with no configured base URL and a
pathname-shaped argument, the URL constructor inside determineUrlToFetch
throws a TypeError before the dispatch starts, so the verb promise rejects
instead of resolving with a Success or Failure value. -/
theorem C4_counterexample :
    runVerbOp .get ⟨none, [], none, []⟩ (constThrow (.nonError 0))
        ⟨.withPathname "/x", none⟩ .null = .threw
    ∧ (runVerbOp .get ⟨none, [], none, []⟩ (constThrow (.nonError 0))
        ⟨.withPathname "/x", none⟩ .null).neverThrew = false := by
  exact ⟨rfl, rfl⟩

/-- C4 amended: every verb call whose URL determination succeeds (a URL
object is supplied, or a base URL is configured) and whose registered
observers all return normally (the throwing-observer case is C10)
resolves with a tagged Success or Failure result value for every
transport outcome; nothing is thrown across the public boundary. -/
theorem C4_amended_no_throw (v : Verb) (st : FetcherState) (ky : Transport)
    (parameters : ParametersWithoutPayload) (payload : Json) (u : ResolvedURL)
    (hurl : determineUrlToFetch st.baseUrl parameters.urlParameters = .ok u)
    (hhandlers : ∀ h ∈ st.httpErrorHandlers, ∀ e, h e = HandlerOutcome.returns) :
    (runVerbOp v st ky parameters payload).neverThrew = true := by
  rw [runVerbOp_unfold v st ky parameters payload u hurl]
  obtain ⟨r, hr⟩ := fetch_termination_returns st ky
    ⟨methodOfVerb v, payloadOfVerb v payload,
     parameters.requestOptions.getD emptyRequestOptions, u⟩ hhandlers
  simp [VerbOutput.neverThrew, hr, FetchTermination.isReturns]

/-- Witness for C4 amended: the postJson verb on a caller-supplied URL
with no registered handlers and a transport that throws a non-Error. -/
theorem C4_amended_witness :
    determineUrlToFetch (none : Option URLModel)
        (.withUrl ⟨"http", "example.com", "/p"⟩) = .ok (.url ⟨"http", "example.com", "/p"⟩)
    ∧ (runVerbOp .postJson ⟨none, [], none, []⟩ (constThrow (.nonError 3))
        ⟨.withUrl ⟨"http", "example.com", "/p"⟩, none⟩ (.str "payload")).neverThrew = true := by
  refine ⟨rfl, ?_⟩
  exact C4_amended_no_throw .postJson ⟨none, [], none, []⟩ (constThrow (.nonError 3))
    ⟨.withUrl ⟨"http", "example.com", "/p"⟩, none⟩ (.str "payload")
    (.url ⟨"http", "example.com", "/p"⟩) rfl
    (by intro h hm; cases hm)

/-- Counterexample to C5 as stated: when the error response body cannot be
parsed as JSON (the json reader rejects), the dispatch returns the bare
original HTTP error, not an error wrapped to carry the response body. -/
theorem C5_counterexample :
    (fetch ⟨none, [], none, []⟩
        (constThrow (.http ⟨"Request failed with status code 500", none, 0⟩))
        ⟨.GET, none, emptyRequestOptions, .url ⟨"http", "example.com", "/p"⟩⟩).termination
      = .returns (.err (.httpError ⟨"Request failed with status code 500", none, 0⟩))
    ∧ (HttpFetcherError.httpError
        ⟨"Request failed with status code 500", none, 0⟩).isWithResponseBody = false := by
  exact ⟨rfl, rfl⟩

/-- C5 amended: for a transport HTTP error whose body does not match the
backend-error shape, the dispatch reports to the sink exactly once and
runs each observer exactly once (no second notification), and returns as
Failure the original error wrapped with the parsed body when the body
parsed as JSON, or the bare original HTTP error when the json reader
threw. -/
theorem C5_amended_unstructured_body (st : FetcherState) (options : InternalFetchOptions)
    (error : HTTPErrorModel)
    (hparse : ∀ j, error.responseJson = some j → safeParseBackendErrors j = none)
    (hhandlers : ∀ h ∈ st.httpErrorHandlers, h error = HandlerOutcome.returns) :
    (fetch st (constThrow (.http error)) options).termination
      = .returns (.err (match error.responseJson with
          | some j => .withResponseBody error j
          | none => .httpError error))
    ∧ (fetch st (constThrow (.http error)) options).reports
      = [⟨error.message, .httpError error⟩]
    ∧ (fetch st (constThrow (.http error)) options).handlerCalls
      = (List.range st.httpErrorHandlers.length).map (fun j => (j, error)) := by
  have hrun := runHandlersFrom_all_normal_zero error st.httpErrorHandlers hhandlers
  rw [fetch_http_unfold, hrun]
  cases hj : error.responseJson with
  | none => exact ⟨rfl, rfl, rfl⟩
  | some j =>
    have hm : mapErrorToHttpFetcherError j (.withResponseBody error j)
        = .withResponseBody error j := by
      simp [mapErrorToHttpFetcherError, hparse j hj]
    refine ⟨?_, rfl, rfl⟩
    simp [hm]

/-- Witness for C5 amended: one observer, a body that parses as the JSON
string oops and so fails the backend-error schema. -/
theorem C5_amended_witness :
    safeParseBackendErrors (.str "oops") = none
    ∧ (fetch ⟨none, [], none, [fun _ => HandlerOutcome.returns]⟩
        (constThrow (.http ⟨"Request failed with status code 500", some (.str "oops"), 0⟩))
        ⟨.GET, none, emptyRequestOptions, .url ⟨"http", "example.com", "/p"⟩⟩).termination
      = .returns (.err (.withResponseBody
          ⟨"Request failed with status code 500", some (.str "oops"), 0⟩ (.str "oops")))
    ∧ (fetch ⟨none, [], none, [fun _ => HandlerOutcome.returns]⟩
        (constThrow (.http ⟨"Request failed with status code 500", some (.str "oops"), 0⟩))
        ⟨.GET, none, emptyRequestOptions, .url ⟨"http", "example.com", "/p"⟩⟩).reports
      = [⟨"Request failed with status code 500",
          .httpError ⟨"Request failed with status code 500", some (.str "oops"), 0⟩⟩]
    ∧ (fetch ⟨none, [], none, [fun _ => HandlerOutcome.returns]⟩
        (constThrow (.http ⟨"Request failed with status code 500", some (.str "oops"), 0⟩))
        ⟨.GET, none, emptyRequestOptions, .url ⟨"http", "example.com", "/p"⟩⟩).handlerCalls
      = (List.range 1).map
          (fun j => (j, ⟨"Request failed with status code 500", some (.str "oops"), 0⟩)) := by
  refine ⟨rfl, ?_⟩
  exact C5_amended_unstructured_body
    ⟨none, [], none, [fun _ => HandlerOutcome.returns]⟩
    ⟨.GET, none, emptyRequestOptions, .url ⟨"http", "example.com", "/p"⟩⟩
    ⟨"Request failed with status code 500", some (.str "oops"), 0⟩
    (by intro j hj; cases hj; rfl)
    (by intro h hm; rcases List.mem_singleton.mp hm with rfl; rfl)

/-- Counterexample to C6 as stated: a first errors entry with an errorCode
but no message fails the zod schema, whose message field is required, so
no composite error is built and no errorCode-colon-message form appears;
the wrapped original error comes back unchanged with its own message. -/
theorem C6_counterexample :
    mapErrorToHttpFetcherError
        (.obj [("errors", .arr [.obj [("errorCode", .str "E1")]])])
        (.withResponseBody ⟨"orig", none, 0⟩
          (.obj [("errors", .arr [.obj [("errorCode", .str "E1")]])]))
      = .withResponseBody ⟨"orig", none, 0⟩
          (.obj [("errors", .arr [.obj [("errorCode", .str "E1")]])])
    ∧ (mapErrorToHttpFetcherError
        (.obj [("errors", .arr [.obj [("errorCode", .str "E1")]])])
        (.withResponseBody ⟨"orig", none, 0⟩
          (.obj [("errors", .arr [.obj [("errorCode", .str "E1")]])]))).message
      ≠ "E1: orig" := by
  exact ⟨rfl, by decide⟩

/-- C6 amended: a response body whose first errors entry has an errorCode
but an absent message fails the backend-error schema (zod requires the
message string), so mapErrorToHttpFetcherError returns its error argument
unchanged; the fallback of the composite message to the original error
message is unreachable. -/
theorem C6_amended_absent_message_fails_schema (body entry : Json) (rest : List Json)
    (code : String) (error : HttpFetcherError)
    (hentries : body.getField "errors" = some (.arr (entry :: rest)))
    (hcode : entry.getField "errorCode" = some (.str code))
    (hmsg : entry.getField "message" = none) :
    safeParseBackendErrors body = none
    ∧ mapErrorToHttpFetcherError body error = error := by
  have hentry : parseBackendError entry = none := by
    unfold parseBackendError
    rw [hcode, hmsg]
    rfl
  have hmapm : List.mapM.loop parseBackendError (entry :: rest) [] = none := by
    simp [List.mapM.loop, hentry]
  have hsafe : safeParseBackendErrors body = none := by
    simp [safeParseBackendErrors, hentries, hmapm]
  refine ⟨hsafe, ?_⟩
  simp [mapErrorToHttpFetcherError, hsafe]

/-- Witness for C6 amended: the one-entry body with errorCode E1 and no
message, against a wrapped HTTP error. -/
theorem C6_amended_witness :
    (Json.obj [("errors", .arr [.obj [("errorCode", .str "E1")]])]).getField "errors"
      = some (.arr [.obj [("errorCode", .str "E1")]])
    ∧ (Json.obj [("errorCode", .str "E1")]).getField "message" = none
    ∧ safeParseBackendErrors (.obj [("errors", .arr [.obj [("errorCode", .str "E1")]])]) = none
    ∧ mapErrorToHttpFetcherError
        (.obj [("errors", .arr [.obj [("errorCode", .str "E1")]])])
        (.httpError ⟨"orig", none, 0⟩)
      = .httpError ⟨"orig", none, 0⟩ := by
  refine ⟨rfl, rfl, ?_⟩
  exact C6_amended_absent_message_fails_schema
    (.obj [("errors", .arr [.obj [("errorCode", .str "E1")]])])
    (.obj [("errorCode", .str "E1")]) [] "E1" (.httpError ⟨"orig", none, 0⟩)
    rfl rfl rfl

end HttpFetcher
